import Mathlib

/-!
# mcp-relay — verification of the tool-invocation pipeline

Shallow embedding of the behavioural core of the `mcp-relay` MCP server:
the shared error taxonomy (`src/shared/errors.ts`), the structured logger's
redaction pass (`src/shared/logger.ts`), the bounded HTTP client's failure
classification (`src/shared/http-client.ts`), the generic response validator
(`src/shared/validation.ts`), the Jira domain client (`src/tools/jira/client.ts`),
the Jira formatters (`src/tools/jira/schemas.ts`) and the `jira_get_issue` /
`jira_update_issue` handlers.

JavaScript runtime facilities that the code calls but does not define
(`fetch`, `JSON.parse`, `new URL`, Zod's `safeParse`, `crypto.randomUUID`)
are passed in as function parameters or modelled as inputs, so every
definition below is a total, executable Lean function.
-/

namespace McpRelay

/-- JavaScript values, as they appear in parsed JSON and in log-entry field
maps.  `undef` models `undefined` (distinct from `null` in the logger's
pass-through check); objects are ordered key/value lists, as produced by
`JSON.parse` / object literals (keys unique). -/
inductive JsValue where
  | null
  | undef
  | bool (b : Bool)
  | num (n : Int)
  | str (s : String)
  | arr (items : List JsValue)
  | obj (entries : List (String × JsValue))

/-- `ErrorMetadata` from `src/shared/errors.ts`: the {toolName, operation,
correlationId} trio threaded through one invocation. -/
structure ErrorMetadata where
  toolName : String
  operation : String
  correlationId : String
deriving Repr, DecidableEq

/-- The thrown failure taxonomy from `src/shared/errors.ts`, restricted to the
two specialisations the pipeline raises: `ExternalServiceError` (optional
status code) and `ValidationError` (issue list).  Both carry the metadata the
base `ToolError` requires. -/
inductive ToolFailure where
  | externalService (message : String) (metadata : ErrorMetadata) (statusCode : Option Nat)
  | validationFailure (message : String) (metadata : ErrorMetadata) (issues : List String)
deriving Repr, DecidableEq

/-- The message carried by a raised failure (`Error.message`). -/
def ToolFailure.message : ToolFailure → String
  | .externalService m _ _ => m
  | .validationFailure m _ _ => m

/-- The metadata carried by a raised failure. -/
def ToolFailure.metadata : ToolFailure → ErrorMetadata
  | .externalService _ md _ => md
  | .validationFailure _ md _ => md

/-- Log severities of `src/shared/logger.ts`. -/
inductive LogLevel where
  | info
  | warn
  | error
deriving Repr, DecidableEq, BEq

/-- One structured log line: severity plus the `message` field.  (The other
fields — metadata, duration — do not matter for the counting properties.) -/
structure LogLine where
  level : LogLevel
  message : String
deriving Repr, DecidableEq

/-- Number of emitted lines at a given severity. -/
def countLevel (lvl : LogLevel) (logs : List LogLine) : Nat :=
  (logs.filter (fun entry => entry.level == lvl)).length

/-- The `{status, body}` pair `httpRequest` resolves with for any completed
response (`src/shared/http-client.ts`). -/
structure HttpResponse where
  status : Nat
  body : String
deriving Repr, DecidableEq

/-- The single-text-block MCP error response built by the Jira client
(`McpErrorResponse` in `src/tools/jira/client.ts`, always `isError: true`). -/
structure McpErrorResponse where
  text : String
deriving Repr, DecidableEq

/-- `JiraResult` from `src/tools/jira/client.ts`: the discriminated envelope
`{ ok: true; data } | { ok: false; mcpResponse }`. -/
inductive JiraResult where
  | ok (data : JsValue)
  | notOk (mcpResponse : McpErrorResponse)

/-- A client call's observable outcome: the log lines it emitted plus either
the returned envelope or the raised failure. -/
structure ClientOutcome where
  logs : List LogLine
  result : Except ToolFailure JiraResult

/-- `jiraRequest` from `src/tools/jira/client.ts`, from the point where the
`httpRequest` response is available (the network call itself is the `response`
input; `JSON.parse` is the `parseJson` input, `none` meaning a parse throw).
Branches mirror the source in order: 401, 403, 404 (caller-supplied
`notFoundMessage` or the generic default), any other non-2xx throws an
`ExternalServiceError` carrying the status, and on 2xx the body is parsed —
a parse failure throws, success returns the `ok` envelope with the
unvalidated payload. -/
def jiraRequest (parseJson : String → Option JsValue) (response : HttpResponse)
    (notFoundMessage : Option String) (metadata : ErrorMetadata) : ClientOutcome :=
  if response.status = 401 then
    { logs := [⟨.error, "Jira authentication failed"⟩]
      result := .ok (.notOk ⟨"Jira authentication failed. Check the configured credentials."⟩) }
  else if response.status = 403 then
    { logs := [⟨.error, "Jira permission denied"⟩]
      result := .ok (.notOk
        ⟨"Permission denied when accessing Jira. The configured user may lack access."⟩) }
  else if response.status = 404 then
    { logs := [⟨.warn, "Jira resource not found"⟩]
      result := .ok (.notOk
        ⟨notFoundMessage.getD
          "The requested Jira resource was not found. Check the identifier and try again."⟩) }
  else if response.status < 200 ∨ 300 ≤ response.status then
    { logs := []
      result := .error (.externalService
        ("Jira API returned unexpected status " ++ toString response.status)
        metadata (some response.status)) }
  else
    match parseJson response.body with
    | some data => { logs := [], result := .ok (.ok data) }
    | none =>
      { logs := []
        result := .error (.externalService
          "Failed to parse Jira API response as JSON" metadata none) }

/-! ## Log sink redaction (`src/shared/logger.ts`) -/

/-- `SENSITIVE_KEYS` from `src/shared/logger.ts`: field names that must never
appear in log output, matched case-insensitively against object keys. -/
def SENSITIVE_KEYS : List String :=
  ["apitoken", "api_token", "apikey", "api_key", "accesskeyid", "access_key_id",
   "secretaccesskey", "secret_access_key", "password", "secret", "token",
   "authorization", "cookie"]

mutual

/-- `sanitise` from `src/shared/logger.ts`: `null`/`undefined` and non-object
scalars pass through; arrays map recursively; object entries whose lowercased
key is in `SENSITIVE_KEYS` are replaced by the string `"[REDACTED]"`, other
entries recurse. -/
def sanitise : JsValue → JsValue
  | .null => .null
  | .undef => .undef
  | .bool b => .bool b
  | .num n => .num n
  | .str s => .str s
  | .arr items => .arr (sanitiseList items)
  | .obj entries => .obj (sanitiseEntries entries)

/-- Element-wise recursion of `sanitise` over an array (`value.map(sanitise)`). -/
def sanitiseList : List JsValue → List JsValue
  | [] => []
  | v :: rest => sanitise v :: sanitiseList rest

/-- Entry-wise recursion of `sanitise` over `Object.entries(value)`. -/
def sanitiseEntries : List (String × JsValue) → List (String × JsValue)
  | [] => []
  | (k, v) :: rest =>
    (if SENSITIVE_KEYS.contains k.toLower then (k, JsValue.str "[REDACTED]")
     else (k, sanitise v)) :: sanitiseEntries rest

end

mutual

/-- Relates an input value to its redacted image: scalars and `null`/
`undefined` are unchanged, arrays correspond element-wise, and every object
entry keeps its key, with a case-insensitively sensitive key forcing the
literal string `"[REDACTED]"` and any other key recursing into the value. -/
def matchesRedaction : JsValue → JsValue → Bool
  | .null, .null => true
  | .undef, .undef => true
  | .bool b, .bool b' => b == b'
  | .num n, .num n' => n == n'
  | .str s, .str s' => s == s'
  | .arr xs, .arr ys => matchesRedactionList xs ys
  | .obj es, .obj fs => matchesRedactionEntries es fs
  | _, _ => false

/-- Element-wise form of `matchesRedaction` for arrays. -/
def matchesRedactionList : List JsValue → List JsValue → Bool
  | [], [] => true
  | x :: xs, y :: ys => matchesRedaction x y && matchesRedactionList xs ys
  | _, _ => false

/-- Entry-wise form of `matchesRedaction` for objects. -/
def matchesRedactionEntries : List (String × JsValue) → List (String × JsValue) → Bool
  | [], [] => true
  | (k, v) :: es, (k', v') :: fs =>
    k == k' &&
    (if SENSITIVE_KEYS.contains k.toLower then
      (match v' with | .str s => s == "[REDACTED]" | _ => false)
     else matchesRedaction v v') &&
    matchesRedactionEntries es fs
  | _, _ => false

end

mutual

/-- `sanitise` realises the redaction relation on every value. -/
theorem sanitise_matchesRedaction : ∀ v, matchesRedaction v (sanitise v) = true
  | .null => by simp [sanitise, matchesRedaction]
  | .undef => by simp [sanitise, matchesRedaction]
  | .bool b => by simp [sanitise, matchesRedaction]
  | .num n => by simp [sanitise, matchesRedaction]
  | .str s => by simp [sanitise, matchesRedaction]
  | .arr xs => by
      simp [sanitise, matchesRedaction, sanitiseList_matchesRedactionList xs]
  | .obj es => by
      simp [sanitise, matchesRedaction, sanitiseEntries_matchesRedactionEntries es]

/-- Array form of `sanitise_matchesRedaction`. -/
theorem sanitiseList_matchesRedactionList :
    ∀ xs, matchesRedactionList xs (sanitiseList xs) = true
  | [] => by simp [sanitiseList, matchesRedactionList]
  | x :: xs => by
      simp [sanitiseList, matchesRedactionList, sanitise_matchesRedaction x,
        sanitiseList_matchesRedactionList xs]

/-- Object-entry form of `sanitise_matchesRedaction`. -/
theorem sanitiseEntries_matchesRedactionEntries :
    ∀ es, matchesRedactionEntries es (sanitiseEntries es) = true
  | [] => by simp [sanitiseEntries, matchesRedactionEntries]
  | (k, v) :: es => by
      by_cases hk : SENSITIVE_KEYS.contains k.toLower
      · simp only [sanitiseEntries]
        rw [if_pos hk]
        simp only [matchesRedactionEntries]
        simp [hk, sanitiseEntries_matchesRedactionEntries es]
        exact Or.inl (by simpa using hk)
      · simp only [sanitiseEntries]
        rw [if_neg hk]
        simp only [matchesRedactionEntries]
        simp [hk, sanitise_matchesRedaction v,
          sanitiseEntries_matchesRedactionEntries es]
        exact Or.inl (by simpa using hk)

end

/-! ## Claim theorems C1 and C2 -/

/-- **C1.** For every call to `jiraRequest`: a response status of 401, 403 or
404 yields a returned failure envelope whose text is, respectively, the fixed
authentication-failed message, the fixed permission-denied message, and the
caller-supplied `notFoundMessage` (or the generic default); any other non-2xx
status raises an `ExternalServiceError` carrying that status code; a 2xx
status with a JSON-parseable body returns a success envelope carrying the
parsed, unvalidated payload; and a 2xx status whose body fails to parse
raises an `ExternalServiceError`. -/
theorem c1_jiraRequest_classification
    (parseJson : String → Option JsValue) (response : HttpResponse)
    (notFoundMessage : Option String) (metadata : ErrorMetadata) :
    (response.status = 401 →
      (jiraRequest parseJson response notFoundMessage metadata).result =
        .ok (.notOk ⟨"Jira authentication failed. Check the configured credentials."⟩)) ∧
    (response.status = 403 →
      (jiraRequest parseJson response notFoundMessage metadata).result =
        .ok (.notOk
          ⟨"Permission denied when accessing Jira. The configured user may lack access."⟩)) ∧
    (response.status = 404 →
      (jiraRequest parseJson response notFoundMessage metadata).result =
        .ok (.notOk
          ⟨notFoundMessage.getD
            "The requested Jira resource was not found. Check the identifier and try again."⟩)) ∧
    (response.status ≠ 401 → response.status ≠ 403 → response.status ≠ 404 →
      (response.status < 200 ∨ 300 ≤ response.status) →
      (jiraRequest parseJson response notFoundMessage metadata).result =
        .error (.externalService
          ("Jira API returned unexpected status " ++ toString response.status)
          metadata (some response.status))) ∧
    (∀ data, 200 ≤ response.status → response.status < 300 →
      parseJson response.body = some data →
      (jiraRequest parseJson response notFoundMessage metadata).result = .ok (.ok data)) ∧
    (200 ≤ response.status → response.status < 300 → parseJson response.body = none →
      (jiraRequest parseJson response notFoundMessage metadata).result =
        .error (.externalService "Failed to parse Jira API response as JSON" metadata none)) := by
  refine ⟨?_, ?_, ?_, ?_, ?_, ?_⟩
  · intro h; simp [jiraRequest, h]
  · intro h; simp [jiraRequest, h]
  · intro h; simp [jiraRequest, h]
  · intro h1 h2 h3 h4
    simp [jiraRequest, h1, h2, h3, h4]
  · intro data hl hu hp
    have h1 : response.status ≠ 401 := by omega
    have h2 : response.status ≠ 403 := by omega
    have h3 : response.status ≠ 404 := by omega
    have h4 : ¬(response.status < 200 ∨ 300 ≤ response.status) := by omega
    simp [jiraRequest, h1, h2, h3, h4, hp]
  · intro hl hu hp
    have h1 : response.status ≠ 401 := by omega
    have h2 : response.status ≠ 403 := by omega
    have h3 : response.status ≠ 404 := by omega
    have h4 : ¬(response.status < 200 ∨ 300 ≤ response.status) := by omega
    simp [jiraRequest, h1, h2, h3, h4, hp]

/-- Non-vacuity of `c1_jiraRequest_classification`: its branch hypotheses are
each satisfiable at concrete responses. -/
theorem c1_jiraRequest_classification_witness :
    ((401 : Nat) = 401 ∧
      (jiraRequest (fun _ => none) ⟨401, ""⟩ none ⟨"jira_get_issue", "getIssue", "c1"⟩).result =
        .ok (.notOk ⟨"Jira authentication failed. Check the configured credentials."⟩)) ∧
    ((404 : Nat) = 404 ∧
      (jiraRequest (fun _ => none) ⟨404, ""⟩ (some "Jira issue PROJ-1 was not found.")
          ⟨"jira_get_issue", "getIssue", "c1"⟩).result =
        .ok (.notOk ⟨"Jira issue PROJ-1 was not found."⟩)) ∧
    (((500 : Nat) < 200 ∨ (300 : Nat) ≤ 500) ∧
      (jiraRequest (fun _ => none) ⟨500, ""⟩ none ⟨"jira_get_issue", "getIssue", "c1"⟩).result =
        .error (.externalService ("Jira API returned unexpected status " ++ toString (500 : Nat))
          ⟨"jira_get_issue", "getIssue", "c1"⟩ (some 500))) ∧
    ((fun _ => some (JsValue.num 1) : String → Option JsValue) "1" = some (JsValue.num 1) ∧
      (jiraRequest (fun _ => some (JsValue.num 1)) ⟨200, "1"⟩ none
          ⟨"jira_get_issue", "getIssue", "c1"⟩).result = .ok (.ok (JsValue.num 1))) ∧
    ((fun _ => none : String → Option JsValue) "x" = none ∧
      (jiraRequest (fun _ => none) ⟨200, "x"⟩ none
          ⟨"jira_get_issue", "getIssue", "c1"⟩).result =
        .error (.externalService "Failed to parse Jira API response as JSON"
          ⟨"jira_get_issue", "getIssue", "c1"⟩ none)) := by
  refine ⟨⟨rfl, ?_⟩, ⟨rfl, ?_⟩, ⟨by omega, ?_⟩, ⟨rfl, ?_⟩, ⟨rfl, ?_⟩⟩
  · exact (c1_jiraRequest_classification (fun _ => none) ⟨401, ""⟩ none
      ⟨"jira_get_issue", "getIssue", "c1"⟩).1 rfl
  · exact (c1_jiraRequest_classification (fun _ => none) ⟨404, ""⟩
      (some "Jira issue PROJ-1 was not found.") ⟨"jira_get_issue", "getIssue", "c1"⟩).2.2.1 rfl
  · exact (c1_jiraRequest_classification (fun _ => none) ⟨500, ""⟩ none
      ⟨"jira_get_issue", "getIssue", "c1"⟩).2.2.2.1 (by decide) (by decide) (by decide)
      (by decide)
  · exact (c1_jiraRequest_classification (fun _ => some (JsValue.num 1)) ⟨200, "1"⟩ none
      ⟨"jira_get_issue", "getIssue", "c1"⟩).2.2.2.2.1 (JsValue.num 1) (by decide) (by decide) rfl
  · exact (c1_jiraRequest_classification (fun _ => none) ⟨200, "x"⟩ none
      ⟨"jira_get_issue", "getIssue", "c1"⟩).2.2.2.2.2 (by decide) (by decide) rfl

/-- **C2.** For every value passed to the log sink's sanitiser: every entry of
every object, at any nesting depth including inside arrays, whose key
case-insensitively matches the sensitive-key denylist (which includes
`apiToken`) has its value replaced by the literal string `"[REDACTED]"`; all
other scalar values, and `null`/`undefined` values, pass through unchanged.
The relation `matchesRedaction` states exactly this shape correspondence. -/
theorem c2_sanitise_redacts (v : JsValue) : matchesRedaction v (sanitise v) = true :=
  sanitise_matchesRedaction v

/-! ## Bounded network client (`src/shared/http-client.ts`) -/

/-- The components `new URL(raw)` exposes; `origin` and `pathname` are the
only ones `safeUrl` keeps, `search` (query string) and `hash` (fragment) are
the ones that must never reach an error message. -/
structure UrlParts where
  origin : String
  pathname : String
  search : String
  hash : String

/-- `safeUrl` from `src/shared/http-client.ts`: strip query string and
fragment before a URL is named in any message; a URL the runtime parser
rejects becomes the fixed placeholder.  `parseUrl` stands for the runtime's
`new URL` constructor (`none` = constructor throw). -/
def safeUrl (parseUrl : String → Option UrlParts) (raw : String) : String :=
  match parseUrl raw with
  | some parsed => parsed.origin ++ parsed.pathname
  | none => "<malformed-url>"

/-- How the awaited `fetch` can fail inside `httpRequest`'s `try`: the abort
signal fired (`DOMException` named `AbortError`), some other `Error` with a
message, or a thrown non-`Error` value. -/
inductive FetchFailure where
  | abortSignal
  | errorWithMessage (message : String)
  | nonErrorThrown

/-- The `catch` block of `httpRequest` (`src/shared/http-client.ts`): every
fetch failure is wrapped as an `ExternalServiceError` whose message names the
target through `safeUrl` — a timeout names the timeout, any other failure
appends the underlying message (or `"Unknown network error"` for a non-Error
value).  No status code is attached. -/
def httpRequestFailureWrap (parseUrl : String → Option UrlParts) (url : String)
    (timeoutMs : Nat) (metadata : ErrorMetadata) (failure : FetchFailure) : ToolFailure :=
  match failure with
  | .abortSignal =>
    .externalService
      ("Request to " ++ safeUrl parseUrl url ++ " timed out after " ++ toString timeoutMs ++ "ms")
      metadata none
  | .errorWithMessage m =>
    .externalService ("Request to " ++ safeUrl parseUrl url ++ " failed: " ++ m) metadata none
  | .nonErrorThrown =>
    .externalService ("Request to " ++ safeUrl parseUrl url ++ " failed: Unknown network error")
      metadata none

/-- **C4.** For every failing call to `httpRequest`, the message of the raised
`ExternalServiceError` names only the origin and path of the target URL:
whenever the runtime URL parser yields parts `u` for the target, the message
is built from `u.origin` and `u.pathname` alone (stated exactly per failure
kind), so two URLs whose parses agree on origin and path — however their
query strings or fragments differ — produce identical messages. -/
theorem c4_httpRequest_message_strips_query
    (parseUrl : String → Option UrlParts) (url : String) (u : UrlParts)
    (hu : parseUrl url = some u) (timeoutMs : Nat) (metadata : ErrorMetadata) :
    ((httpRequestFailureWrap parseUrl url timeoutMs metadata .abortSignal).message =
      "Request to " ++ u.origin ++ u.pathname ++ " timed out after " ++
        toString timeoutMs ++ "ms") ∧
    (∀ m, (httpRequestFailureWrap parseUrl url timeoutMs metadata
        (.errorWithMessage m)).message =
      "Request to " ++ u.origin ++ u.pathname ++ " failed: " ++ m) ∧
    ((httpRequestFailureWrap parseUrl url timeoutMs metadata .nonErrorThrown).message =
      "Request to " ++ u.origin ++ u.pathname ++ " failed: Unknown network error") ∧
    (∀ (parseUrl' : String → Option UrlParts) (url' : String) (u' : UrlParts),
      parseUrl' url' = some u' → u'.origin = u.origin → u'.pathname = u.pathname →
      ∀ failure, (httpRequestFailureWrap parseUrl' url' timeoutMs metadata failure).message =
        (httpRequestFailureWrap parseUrl url timeoutMs metadata failure).message) := by
  refine ⟨?_, ?_, ?_, ?_⟩
  · simp [httpRequestFailureWrap, safeUrl, hu, ToolFailure.message, String.append_assoc]
  · intro m
    simp [httpRequestFailureWrap, safeUrl, hu, ToolFailure.message, String.append_assoc]
  · simp [httpRequestFailureWrap, safeUrl, hu, ToolFailure.message, String.append_assoc]
  · intro parseUrl' url' u' hu' ho hp failure
    cases failure <;>
      simp [httpRequestFailureWrap, safeUrl, hu, hu', ho, hp, ToolFailure.message]

/-- Non-vacuity of `c4_httpRequest_message_strips_query`: a concrete parse of
a URL whose query string carries a token, checked against the clause for a
plain network failure. -/
theorem c4_httpRequest_message_strips_query_witness :
    ((fun _ => some (⟨"https://example.atlassian.net", "/rest/api/3/issue/PROJ-1",
        "?token=secret123", "#frag"⟩ : UrlParts)) "u" =
      some ⟨"https://example.atlassian.net", "/rest/api/3/issue/PROJ-1",
        "?token=secret123", "#frag"⟩) ∧
    (httpRequestFailureWrap
        (fun _ => some ⟨"https://example.atlassian.net", "/rest/api/3/issue/PROJ-1",
          "?token=secret123", "#frag"⟩)
        "https://example.atlassian.net/rest/api/3/issue/PROJ-1?token=secret123#frag"
        30000 ⟨"jira_get_issue", "getIssue", "c4"⟩
        (.errorWithMessage "socket hang up")).message =
      "Request to " ++ "https://example.atlassian.net" ++ "/rest/api/3/issue/PROJ-1" ++
        " failed: " ++ "socket hang up" :=
  ⟨rfl,
    (c4_httpRequest_message_strips_query
      (fun _ => some ⟨"https://example.atlassian.net", "/rest/api/3/issue/PROJ-1",
        "?token=secret123", "#frag"⟩)
      "https://example.atlassian.net/rest/api/3/issue/PROJ-1?token=secret123#frag"
      ⟨"https://example.atlassian.net", "/rest/api/3/issue/PROJ-1",
        "?token=secret123", "#frag"⟩
      rfl 30000 ⟨"jira_get_issue", "getIssue", "c4"⟩).2.1 "socket hang up"⟩

/-! ## Schema validator (`src/shared/validation.ts`) -/

/-- One Zod issue as consumed by `parseResponse`: a field path (`issue.path`,
segments stringified) and a human-readable reason (`issue.message`). -/
structure ZodIssue where
  path : List String
  reason : String
deriving Repr, DecidableEq

/-- `parseResponse` from `src/shared/validation.ts`.  The Zod contract is the
`schema` input: `schema.safeParse(data)` either yields the typed value or the
issue list.  On success the typed value is returned; on failure every issue is
formatted as `path-joined-with-dots: reason` and a `ValidationError` carrying
the full list plus the given metadata is raised. -/
def parseResponse {T : Type} (schema : JsValue → Except (List ZodIssue) T)
    (data : JsValue) (metadata : ErrorMetadata) : Except ToolFailure T :=
  match schema data with
  | .ok v => .ok v
  | .error zodIssues =>
    .error (.validationFailure "API response did not match expected schema" metadata
      (zodIssues.map (fun issue => String.intercalate "." issue.path ++ ": " ++ issue.reason)))

/-- **C6.** For every input rejected by `parseResponse`'s schema, it raises a
`ValidationError` (never returns) whose issue list has one entry per violated
field — hence length at least 1, Zod reporting at least one issue on any
failure — each entry naming the field path with its reason, and which carries
the metadata given to the validator; for every accepted input it returns the
typed value. -/
theorem c6_parseResponse_issues {T : Type}
    (schema : JsValue → Except (List ZodIssue) T) (data : JsValue)
    (metadata : ErrorMetadata) :
    (∀ v, schema data = .ok v → parseResponse schema data metadata = .ok v) ∧
    (∀ zodIssues, schema data = .error zodIssues → zodIssues ≠ [] →
      parseResponse schema data metadata =
        .error (.validationFailure "API response did not match expected schema" metadata
          (zodIssues.map
            (fun issue => String.intercalate "." issue.path ++ ": " ++ issue.reason))) ∧
      (zodIssues.map
        (fun issue => String.intercalate "." issue.path ++ ": " ++ issue.reason)).length =
          zodIssues.length ∧
      1 ≤ (zodIssues.map
        (fun issue => String.intercalate "." issue.path ++ ": " ++ issue.reason)).length ∧
      ∀ entry ∈ (zodIssues.map
          (fun issue => String.intercalate "." issue.path ++ ": " ++ issue.reason)),
        ∃ issue ∈ zodIssues,
          entry = String.intercalate "." issue.path ++ ": " ++ issue.reason) := by
  refine ⟨?_, ?_⟩
  · intro v hv
    simp [parseResponse, hv]
  · intro zodIssues hz hne
    refine ⟨by simp [parseResponse, hz], by simp, ?_, ?_⟩
    · simpa [Nat.one_le_iff_ne_zero] using hne
    · intro entry hentry
      rcases List.mem_map.mp hentry with ⟨issue, hmem, heq⟩
      exact ⟨issue, hmem, heq.symm⟩

/-- Non-vacuity of `c6_parseResponse_issues`: a schema that rejects a value
with two issues, both reported with their field paths. -/
theorem c6_parseResponse_issues_witness :
    ((fun _ => .error [⟨["issues", "0", "key"], "Required"⟩,
        ⟨["total"], "Expected number, received string"⟩]
      : JsValue → Except (List ZodIssue) Unit) JsValue.null =
      .error [⟨["issues", "0", "key"], "Required"⟩,
        ⟨["total"], "Expected number, received string"⟩] ∧
    ([⟨["issues", "0", "key"], "Required"⟩,
        ⟨["total"], "Expected number, received string"⟩] : List ZodIssue) ≠ []) ∧
    parseResponse
      (fun _ => .error [⟨["issues", "0", "key"], "Required"⟩,
        ⟨["total"], "Expected number, received string"⟩])
      JsValue.null ⟨"jira_get_issue", "getIssue", "c6"⟩ =
      (.error (.validationFailure "API response did not match expected schema"
        ⟨"jira_get_issue", "getIssue", "c6"⟩
        ["issues.0.key: Required", "total: Expected number, received string"])
        : Except ToolFailure Unit) := by
  refine ⟨⟨rfl, by decide⟩, ?_⟩
  have h := (c6_parseResponse_issues
    (fun _ => .error [⟨["issues", "0", "key"], "Required"⟩,
      ⟨["total"], "Expected number, received string"⟩] : JsValue → Except (List ZodIssue) Unit)
    JsValue.null ⟨"jira_get_issue", "getIssue", "c6"⟩).2
    [⟨["issues", "0", "key"], "Required"⟩, ⟨["total"], "Expected number, received string"⟩]
    rfl (by decide)
  simpa using h.1

/-! ## Rich-text (ADF) reducer (`src/tools/jira/schemas.ts`) -/

/-- JavaScript property lookup (`record['name']`) on an object's entry list. -/
def lookupField (entries : List (String × JsValue)) (key : String) : Option JsValue :=
  match entries with
  | [] => none
  | (k, v) :: rest => if k = key then some v else lookupField rest key

/-- A value found by `lookupField` sits strictly inside the object holding it. -/
theorem lookupField_sizeOf {entries : List (String × JsValue)} {key : String} {v : JsValue}
    (h : lookupField entries key = some v) : sizeOf v < sizeOf (JsValue.obj entries) := by
  induction entries with
  | nil => simp [lookupField] at h
  | cons head rest ih =>
    obtain ⟨k, w⟩ := head
    rw [lookupField] at h
    by_cases hk : k = key
    · rw [if_pos hk] at h
      cases h
      simp
      omega
    · rw [if_neg hk] at h
      have := ih h
      simp at this ⊢
      omega

/-- JavaScript `String.prototype.startsWith`, computed on the character
data. -/
def jsStartsWith (s pre : String) : Bool :=
  pre.data.isPrefixOf s.data

/-- Sequential numbering of already-reduced ordered-list items, as in the
`orderedList` branch: item `index` gets the prefix `index+1`, a leading
`"- "` from a reduced `listItem` child being replaced by the number. -/
def numberListItems (texts : List String) : List String :=
  texts.enum.map (fun p =>
    if jsStartsWith p.2 "- " then toString (p.1 + 1) ++ ". " ++ p.2.drop 2
    else toString (p.1 + 1) ++ ". " ++ p.2)

/-- The `switch (type)` of `extractTextFromAdf` over the already-reduced child
texts: `doc` joins with blank lines, `paragraph`/`heading`/`codeBlock`
concatenate, `bulletList` joins with newlines, `orderedList` numbers the items
sequentially from 1, `listItem` prefixes the marker `"- "`, `blockquote`
prefixes every line with `"> "`, and any unrecognised type concatenates.
(The source recomputes each ordered-list child's text inside its own `map`;
the recomputation yields the same strings, so this dispatch receives them
once.) -/
def joinByType (ty : String) (childTexts : List String) : String :=
  if ty = "doc" then String.intercalate "\n\n" childTexts
  else if ty = "paragraph" ∨ ty = "heading" then String.join childTexts
  else if ty = "bulletList" then String.intercalate "\n" childTexts
  else if ty = "orderedList" then String.intercalate "\n" (numberListItems childTexts)
  else if ty = "listItem" then "- " ++ String.join childTexts
  else if ty = "codeBlock" then String.join childTexts
  else if ty = "blockquote" then
    String.intercalate "\n"
      (((String.join childTexts).splitOn "\n").map (fun line => "> " ++ line))
  else String.join childTexts

mutual

/-- `extractTextFromAdf` from `src/tools/jira/schemas.ts`: `null`/`undefined`
and non-objects reduce to `""` (a bare array has no `type` property, so it
also reduces to `""`); a missing or non-string `type` reduces to `""`; the
`text` leaf returns its literal text (or `""` when the `text` property is not
a string); `hardBreak` returns one newline; otherwise a missing or non-array
`content` reduces to `""` and an array `content` is reduced child by child and
dispatched on the node type. -/
def extractTextFromAdf (node : JsValue) : String :=
  match node with
  | .obj entries =>
    match lookupField entries "type" with
    | some (.str ty) =>
      if ty = "text" then
        match lookupField entries "text" with
        | some (.str s) => s
        | _ => ""
      else if ty = "hardBreak" then "\n"
      else
        match hc : lookupField entries "content" with
        | some (.arr children) =>
          have hlt : sizeOf children < 1 + sizeOf entries := by
            have h1 := lookupField_sizeOf hc
            simp at h1
            omega
          joinByType ty (extractChildren children)
        | _ => ""
    | _ => ""
  | _ => ""
termination_by sizeOf node
decreasing_by
  simp_wf
  exact hlt

/-- `content.map(extractTextFromAdf)`. -/
def extractChildren (children : List JsValue) : List String :=
  match children with
  | [] => []
  | c :: rest => extractTextFromAdf c :: extractChildren rest
termination_by sizeOf children
decreasing_by
  all_goals simp_wf
  all_goals omega

end

/-- `extractChildren` is exactly the element-wise map of the reducer. -/
theorem extractChildren_eq_map (children : List JsValue) :
    extractChildren children = children.map extractTextFromAdf := by
  induction children with
  | nil => simp [extractChildren]
  | cons c rest ih => simp [extractChildren, ih]

/-- Dispatch lemma: a container node (type neither `text` nor `hardBreak`)
whose `content` is an array reduces to `joinByType` of its reduced children. -/
theorem extract_container (entries : List (String × JsValue)) (ty : String)
    (children : List JsValue)
    (hty : lookupField entries "type" = some (.str ty))
    (h1 : ty ≠ "text") (h2 : ty ≠ "hardBreak")
    (hcontent : lookupField entries "content" = some (.arr children)) :
    extractTextFromAdf (.obj entries) = joinByType ty (children.map extractTextFromAdf) := by
  rw [extractTextFromAdf]
  simp only [hty, h1, h2, if_false, ite_false]
  split
  · rename_i children' hc'
    rw [hcontent] at hc'
    simp only [Option.some.injEq, JsValue.arr.injEq] at hc'
    subst hc'
    rw [extractChildren_eq_map]
  · rename_i hne
    exact absurd hcontent (by simp_all)

/-- **C7.** For every well-formed rich-text tree (`JsValue` trees are
well-formed by construction: every container's `content` that is an array is
a sequence of nodes), the reducer `extractTextFromAdf` terminates and never
raises — it is a total Lean function, defined by well-founded recursion on
the tree — and a node of unrecognized type reduces to the concatenation of
its reduced children, never dropping content when children exist. -/
theorem c7_extract_unknown_type_recurses (entries : List (String × JsValue)) (ty : String)
    (children : List JsValue)
    (hty : lookupField entries "type" = some (.str ty))
    (hunknown : ty ∉ ["text", "hardBreak", "doc", "paragraph", "heading", "bulletList",
      "orderedList", "listItem", "codeBlock", "blockquote"])
    (hcontent : lookupField entries "content" = some (.arr children)) :
    extractTextFromAdf (.obj entries) = String.join (children.map extractTextFromAdf) := by
  simp only [List.mem_cons, List.not_mem_nil, or_false, not_or] at hunknown
  obtain ⟨h1, h2, h3, h4, h5, h6, h7, h8, h9, h10⟩ := hunknown
  rw [extract_container entries ty children hty h1 h2 hcontent]
  simp [joinByType, h3, h4, h5, h6, h7, h8, h9, h10]

/-- Non-vacuity of `c7_extract_unknown_type_recurses`: a `panel` node (a type
the reducer does not know) containing one text leaf reduces to that leaf's
text. -/
theorem c7_extract_unknown_type_recurses_witness :
    lookupField [("type", JsValue.str "panel"),
        ("content", JsValue.arr [JsValue.obj [("type", JsValue.str "text"),
          ("text", JsValue.str "hello")]])] "type" = some (JsValue.str "panel") ∧
    ("panel" ∉ ["text", "hardBreak", "doc", "paragraph", "heading", "bulletList",
      "orderedList", "listItem", "codeBlock", "blockquote"]) ∧
    extractTextFromAdf (JsValue.obj [("type", JsValue.str "panel"),
        ("content", JsValue.arr [JsValue.obj [("type", JsValue.str "text"),
          ("text", JsValue.str "hello")]])]) = "hello" := by
  refine ⟨rfl, by decide, ?_⟩
  have h := c7_extract_unknown_type_recurses
    [("type", JsValue.str "panel"),
     ("content", JsValue.arr [JsValue.obj [("type", JsValue.str "text"),
       ("text", JsValue.str "hello")]])]
    "panel"
    [JsValue.obj [("type", JsValue.str "text"), ("text", JsValue.str "hello")]]
    rfl (by decide) rfl
  rw [h]
  simp only [List.map_cons, List.map_nil]
  rw [extractTextFromAdf]
  simp [lookupField, String.join]

/-- **C8.** For every well-formed rich-text tree, the reducer joins the
children of a document with blank lines (paragraphs are joined by blank
lines), prefixes each reduced list item with the `"- "` marker, numbers the
items of every ordered list sequentially starting at 1, prefixes every line
of a block quote with `"> "`, returns the literal text of a `text` leaf, and
returns a single newline for a `hardBreak` node. -/
theorem c8_extract_known_separators :
    (∀ entries children, lookupField entries "type" = some (.str "doc") →
      lookupField entries "content" = some (.arr children) →
      extractTextFromAdf (.obj entries) =
        String.intercalate "\n\n" (children.map extractTextFromAdf)) ∧
    (∀ entries children, lookupField entries "type" = some (.str "listItem") →
      lookupField entries "content" = some (.arr children) →
      extractTextFromAdf (.obj entries) =
        "- " ++ String.join (children.map extractTextFromAdf)) ∧
    (∀ entries children, lookupField entries "type" = some (.str "orderedList") →
      lookupField entries "content" = some (.arr children) →
      extractTextFromAdf (.obj entries) =
        String.intercalate "\n" (numberListItems (children.map extractTextFromAdf))) ∧
    (∀ (texts : List String) (i : Nat) (s : String), (numberListItems texts)[i]? = some s →
      ∃ t, s = toString (i + 1) ++ ". " ++ t) ∧
    (∀ entries children, lookupField entries "type" = some (.str "blockquote") →
      lookupField entries "content" = some (.arr children) →
      extractTextFromAdf (.obj entries) =
        String.intercalate "\n"
          (((String.join (children.map extractTextFromAdf)).splitOn "\n").map
            (fun line => "> " ++ line)) ∧
      ∀ line ∈ ((String.join (children.map extractTextFromAdf)).splitOn "\n").map
          (fun line => "> " ++ line), ∃ t, line = "> " ++ t) ∧
    (∀ entries s, lookupField entries "type" = some (.str "text") →
      lookupField entries "text" = some (.str s) →
      extractTextFromAdf (.obj entries) = s) ∧
    (∀ entries, lookupField entries "type" = some (.str "hardBreak") →
      extractTextFromAdf (.obj entries) = "\n") := by
  refine ⟨?_, ?_, ?_, ?_, ?_, ?_, ?_⟩
  · intro entries children hty hcontent
    rw [extract_container entries "doc" children hty (by decide) (by decide) hcontent]
    simp [joinByType]
  · intro entries children hty hcontent
    rw [extract_container entries "listItem" children hty (by decide) (by decide) hcontent]
    simp +decide [joinByType]
  · intro entries children hty hcontent
    rw [extract_container entries "orderedList" children hty (by decide) (by decide) hcontent]
    simp +decide [joinByType]
  · intro texts i s hs
    simp only [numberListItems, List.getElem?_map, List.getElem?_enum] at hs
    rcases htexts : texts[i]? with _ | t
    · rw [htexts] at hs
      simp at hs
    · rw [htexts] at hs
      simp at hs
      split at hs
      · exact ⟨t.drop 2, hs.symm⟩
      · exact ⟨t, hs.symm⟩
  · intro entries children hty hcontent
    constructor
    · rw [extract_container entries "blockquote" children hty (by decide) (by decide) hcontent]
      simp +decide [joinByType]
    · intro line hline
      rcases List.mem_map.mp hline with ⟨t, _, ht⟩
      exact ⟨t, ht.symm⟩
  · intro entries s hty htext
    rw [extractTextFromAdf]
    simp [hty, htext]
  · intro entries hty
    rw [extractTextFromAdf]
    simp [hty]

/-- Non-vacuity of `c8_extract_known_separators`: a document with two
paragraphs, the numbering of a two-item ordered list, and a hard break, each
checked against the corresponding clause. -/
theorem c8_extract_known_separators_witness :
    lookupField [("type", JsValue.str "doc"), ("version", JsValue.num 1),
        ("content", JsValue.arr
          [JsValue.obj [("type", JsValue.str "paragraph"),
            ("content", JsValue.arr [JsValue.obj [("type", JsValue.str "text"),
              ("text", JsValue.str "one")]])],
           JsValue.obj [("type", JsValue.str "paragraph"),
            ("content", JsValue.arr [JsValue.obj [("type", JsValue.str "text"),
              ("text", JsValue.str "two")]])]])] "type" = some (JsValue.str "doc") ∧
    extractTextFromAdf (JsValue.obj [("type", JsValue.str "doc"), ("version", JsValue.num 1),
        ("content", JsValue.arr
          [JsValue.obj [("type", JsValue.str "paragraph"),
            ("content", JsValue.arr [JsValue.obj [("type", JsValue.str "text"),
              ("text", JsValue.str "one")]])],
           JsValue.obj [("type", JsValue.str "paragraph"),
            ("content", JsValue.arr [JsValue.obj [("type", JsValue.str "text"),
              ("text", JsValue.str "two")]])]])]) = "one\n\ntwo" ∧
    (numberListItems ["- alpha", "- beta"])[1]? = some "2. beta" ∧
    extractTextFromAdf (JsValue.obj [("type", JsValue.str "hardBreak")]) = "\n" := by
  refine ⟨rfl, ?_, by decide, ?_⟩
  · have h := c8_extract_known_separators.1
      [("type", JsValue.str "doc"), ("version", JsValue.num 1),
       ("content", JsValue.arr
         [JsValue.obj [("type", JsValue.str "paragraph"),
           ("content", JsValue.arr [JsValue.obj [("type", JsValue.str "text"),
             ("text", JsValue.str "one")]])],
          JsValue.obj [("type", JsValue.str "paragraph"),
           ("content", JsValue.arr [JsValue.obj [("type", JsValue.str "text"),
             ("text", JsValue.str "two")]])]])]
      [JsValue.obj [("type", JsValue.str "paragraph"),
         ("content", JsValue.arr [JsValue.obj [("type", JsValue.str "text"),
           ("text", JsValue.str "one")]])],
       JsValue.obj [("type", JsValue.str "paragraph"),
         ("content", JsValue.arr [JsValue.obj [("type", JsValue.str "text"),
           ("text", JsValue.str "two")]])]]
      rfl rfl
    rw [h]
    have hp1 : extractTextFromAdf (JsValue.obj [("type", JsValue.str "paragraph"),
        ("content", JsValue.arr [JsValue.obj [("type", JsValue.str "text"),
          ("text", JsValue.str "one")]])]) = "one" := by
      rw [extract_container
        [("type", JsValue.str "paragraph"),
         ("content", JsValue.arr [JsValue.obj [("type", JsValue.str "text"),
           ("text", JsValue.str "one")]])] "paragraph"
        [JsValue.obj [("type", JsValue.str "text"), ("text", JsValue.str "one")]]
        rfl (by decide) (by decide) rfl]
      simp only [List.map_cons, List.map_nil]
      rw [extractTextFromAdf]
      simp +decide [lookupField, joinByType, String.join]
    have hp2 : extractTextFromAdf (JsValue.obj [("type", JsValue.str "paragraph"),
        ("content", JsValue.arr [JsValue.obj [("type", JsValue.str "text"),
          ("text", JsValue.str "two")]])]) = "two" := by
      rw [extract_container
        [("type", JsValue.str "paragraph"),
         ("content", JsValue.arr [JsValue.obj [("type", JsValue.str "text"),
           ("text", JsValue.str "two")]])] "paragraph"
        [JsValue.obj [("type", JsValue.str "text"), ("text", JsValue.str "two")]]
        rfl (by decide) (by decide) rfl]
      simp only [List.map_cons, List.map_nil]
      rw [extractTextFromAdf]
      simp +decide [lookupField, joinByType, String.join]
    simp only [List.map_cons, List.map_nil, hp1, hp2]
    rfl
  · exact c8_extract_known_separators.2.2.2.2.2.2 [("type", JsValue.str "hardBreak")] rfl

/-! ## Issue formatter (`src/tools/jira/schemas.ts`) -/

/-- A `{ name: string }` sub-object of the validated issue shape
(`status`, `issuetype`, `priority`). -/
structure NamedField where
  name : String
deriving Repr, DecidableEq

/-- The nullable `assignee` sub-object of the validated issue shape. -/
structure JiraUser where
  displayName : String
  emailAddress : Option String
deriving Repr, DecidableEq

/-- `fields` of a value validated by `JiraIssueResponseSchema`: `priority` and
`assignee` are nullable (`Option`), `description` is `unknown().nullable()`
and so is any `JsValue` (with `JsValue.null` as the null case). -/
structure JiraIssueFields where
  summary : String
  status : NamedField
  issuetype : NamedField
  priority : Option NamedField
  assignee : Option JiraUser
  description : JsValue
  created : String
  updated : String

/-- A value validated by `JiraIssueResponseSchema`. -/
structure JiraIssue where
  key : String
  fields : JiraIssueFields

/-- JavaScript `String.prototype.trim`, computed on the character data:
whitespace removed from both ends. -/
def jsTrim (s : String) : String :=
  ⟨((s.data.dropWhile Char.isWhitespace).reverse.dropWhile Char.isWhitespace).reverse⟩

/-- JavaScript truthiness, as used by `fields.description ? ... : ''` and by
`descriptionText.trim() || ...`. -/
def jsTruthy : JsValue → Bool
  | .null => false
  | .undef => false
  | .bool b => b
  | .num n => n ≠ 0
  | .str s => s ≠ ""
  | .arr _ => true
  | .obj _ => true

/-- `formatJiraIssue` from `src/tools/jira/schemas.ts`: a twelve-line block
(`lines.join('\n')`) with null-safe placeholders — `None` for a missing
priority, `Unassigned` for a missing assignee, and
`No description provided.` when the reduced, trimmed description is empty. -/
def formatJiraIssue (issue : JiraIssue) : String :=
  let priority := match issue.fields.priority with
    | some p => p.name
    | none => "None"
  let assignee := match issue.fields.assignee with
    | some a => a.displayName
    | none => "Unassigned"
  let descriptionText :=
    if jsTruthy issue.fields.description then extractTextFromAdf issue.fields.description
    else ""
  let description :=
    if jsTrim descriptionText = "" then "No description provided."
    else jsTrim descriptionText
  String.intercalate "\n"
    [issue.key ++ ": " ++ issue.fields.summary,
     "",
     "Type:     " ++ issue.fields.issuetype.name,
     "Status:   " ++ issue.fields.status.name,
     "Priority: " ++ priority,
     "Assignee: " ++ assignee,
     "",
     "Created:  " ++ issue.fields.created,
     "Updated:  " ++ issue.fields.updated,
     "",
     "Description:",
     description]

/-! ## C9: the formatter round-trip -/

/-- The last eight lines of `formatJiraIssue` (priority, assignee, blank,
timestamps, blank, `Description:` header, description body), joined by
newlines; split out so the first four lines can be analysed separately. -/
def formatTail (issue : JiraIssue) : String :=
  let priority := match issue.fields.priority with
    | some p => p.name
    | none => "None"
  let assignee := match issue.fields.assignee with
    | some a => a.displayName
    | none => "Unassigned"
  let descriptionText :=
    if jsTruthy issue.fields.description then extractTextFromAdf issue.fields.description
    else ""
  let description :=
    if jsTrim descriptionText = "" then "No description provided."
    else jsTrim descriptionText
  String.intercalate "\n"
    ["Priority: " ++ priority,
     "Assignee: " ++ assignee,
     "",
     "Created:  " ++ issue.fields.created,
     "Updated:  " ++ issue.fields.updated,
     "",
     "Description:",
     description]

/-- `String.intercalate.go` pulls an already-accumulated prefix out front. -/
theorem intercalate_go_prepend (s x : String) :
    ∀ (t : List String) (y : String),
      String.intercalate.go (x ++ y) s t = x ++ String.intercalate.go y s t
  | [], y => by simp [String.intercalate.go]
  | b :: t, y => by
    rw [String.intercalate.go, String.intercalate.go]
    rw [String.append_assoc x y s, String.append_assoc x (y ++ s) b]
    exact intercalate_go_prepend s x t (y ++ s ++ b)

/-- Unfolding one line of `String.intercalate` on a list of two or more. -/
theorem intercalate_cons_cons (s a b : String) (t : List String) :
    String.intercalate s (a :: b :: t) = a ++ s ++ String.intercalate s (b :: t) := by
  show String.intercalate.go a s (b :: t) = a ++ s ++ String.intercalate.go b s t
  rw [String.intercalate.go]
  exact intercalate_go_prepend s (a ++ s) t b

/-- The character stream of `formatJiraIssue`, exposing the first four
lines. -/
theorem formatJiraIssue_data (issue : JiraIssue) :
    (formatJiraIssue issue).data =
      issue.key.data ++ ':' :: ' ' :: (issue.fields.summary.data ++ '\n' :: '\n' ::
        ("Type:     ".data ++ (issue.fields.issuetype.name.data ++ '\n' ::
          ("Status:   ".data ++ (issue.fields.status.name.data ++ '\n' ::
            (formatTail issue).data))))) := by
  simp only [formatJiraIssue]
  rw [intercalate_cons_cons, intercalate_cons_cons, intercalate_cons_cons,
    intercalate_cons_cons]
  have h1 : (": " : String).data = [':', ' '] := rfl
  have h2 : ("\n" : String).data = ['\n'] := rfl
  have h3 : ("" : String).data = ([] : List Char) := rfl
  simp [formatTail, String.data_append, h1, h2, h3]

/-- Drop everything up to and including the first newline
(`line.slice(line.indexOf(newline) + 1)` shape used by the re-derivation). -/
def dropLine (cs : List Char) : List Char :=
  (cs.dropWhile (· != '\n')).drop 1

/-- The `n`-th newline-separated line of a character stream. -/
def nthLine : Nat → List Char → List Char
  | 0, cs => cs.takeWhile (· != '\n')
  | n + 1, cs => nthLine n (dropLine cs)

/-- Re-derivation of the issue key from the formatted text, following the
spec's round-trip wording: the first line is `key: summary`, so the key is
the text before the first colon. -/
def deriveKey (t : String) : String :=
  ⟨t.data.takeWhile (· != ':')⟩

/-- Re-derivation of the summary: the remainder of the first line after the
first `": "`. -/
def deriveSummary (t : String) : String :=
  ⟨((t.data.dropWhile (· != ':')).drop 2).takeWhile (· != '\n')⟩

/-- Re-derivation of the status name: the fourth line minus its
`"Status:   "` prefix (ten characters). -/
def deriveStatus (t : String) : String :=
  ⟨(nthLine 3 t.data).drop 10⟩

/-- `takeWhile` passes over a prefix all of whose elements satisfy it. -/
theorem takeWhile_append_all {α : Type} (p : α → Bool) :
    ∀ (a b : List α), (∀ x ∈ a, p x = true) →
      (a ++ b).takeWhile p = a ++ b.takeWhile p
  | [], b, _ => by simp
  | c :: a, b, h => by
    have hc : p c = true := h c (by simp)
    have ha : ∀ x ∈ a, p x = true := fun x hx => h x (by simp [hx])
    simp [List.takeWhile_cons, hc, takeWhile_append_all p a b ha]

/-- `dropWhile` consumes a prefix all of whose elements satisfy it. -/
theorem dropWhile_append_all {α : Type} (p : α → Bool) :
    ∀ (a b : List α), (∀ x ∈ a, p x = true) →
      (a ++ b).dropWhile p = b.dropWhile p
  | [], b, _ => by simp
  | c :: a, b, h => by
    have hc : p c = true := h c (by simp)
    have ha : ∀ x ∈ a, p x = true := fun x hx => h x (by simp [hx])
    simp [List.dropWhile_cons, hc, dropWhile_append_all p a b ha]

/-- Characters other than `c` all pass the `(· != c)` test. -/
theorem all_bne_of_not_mem {c : Char} {A : List Char} (h : c ∉ A) :
    ∀ x ∈ A, (x != c) = true := by
  intro x hx
  simp only [bne_iff_ne, ne_eq]
  rintro rfl
  exact h hx

/-- Dropping the first line of `A ++ newline ++ rest` leaves `rest` when `A`
holds no newline. -/
theorem dropLine_concat (A rest : List Char) (h : ∀ x ∈ A, (x != '\n') = true) :
    dropLine (A ++ '\n' :: rest) = rest := by
  unfold dropLine
  rw [dropWhile_append_all _ A ('\n' :: rest) h]
  simp [List.dropWhile_cons]

/-- The first line of `A ++ newline ++ rest` is `A` when `A` holds no
newline. -/
theorem nthLine_zero_concat (A rest : List Char) (h : ∀ x ∈ A, (x != '\n') = true) :
    nthLine 0 (A ++ '\n' :: rest) = A := by
  unfold nthLine
  rw [takeWhile_append_all _ A ('\n' :: rest) h]
  simp [List.takeWhile_cons]

/-- Passing a newline-free first line shifts the line index down by one. -/
theorem nthLine_succ_concat (n : Nat) (A rest : List Char)
    (h : ∀ x ∈ A, (x != '\n') = true) :
    nthLine (n + 1) (A ++ '\n' :: rest) = nthLine n rest := by
  show nthLine n (dropLine (A ++ '\n' :: rest)) = nthLine n rest
  rw [dropLine_concat A rest h]

/-- **C9 counterexample.** The claim fails as stated: two validated issue
entities with no null optional fields but different summaries format to the
same text (a newline inside one entity's summary reproduces the `Type:` line),
so no re-derivation from the formatted text can recover both summaries. -/
theorem c9_formatJiraIssue_roundtrip_counterexample :
    formatJiraIssue
        ⟨"K", ⟨"S", ⟨"X"⟩, ⟨"T2\n\nType:     T3"⟩, some ⟨"P"⟩, some ⟨"AA", none⟩,
          JsValue.str "D", "C", "U"⟩⟩ =
      formatJiraIssue
        ⟨"K", ⟨"S\n\nType:     T2", ⟨"X"⟩, ⟨"T3"⟩, some ⟨"P"⟩, some ⟨"AA", none⟩,
          JsValue.str "D", "C", "U"⟩⟩ ∧
    (⟨"K", ⟨"S", ⟨"X"⟩, ⟨"T2\n\nType:     T3"⟩, some ⟨"P"⟩, some ⟨"AA", none⟩,
        JsValue.str "D", "C", "U"⟩⟩ : JiraIssue).fields.summary ≠
      (⟨"K", ⟨"S\n\nType:     T2", ⟨"X"⟩, ⟨"T3"⟩, some ⟨"P"⟩, some ⟨"AA", none⟩,
        JsValue.str "D", "C", "U"⟩⟩ : JiraIssue).fields.summary := by
  constructor
  · have hd : extractTextFromAdf (JsValue.str "D") = "" := by
      rw [extractTextFromAdf]
      intro entries h
      exact JsValue.noConfusion h
    simp [formatJiraIssue, hd]
    decide
  · decide

/-- **C9 (amended).** For every validated issue entity with no null optional
fields whose key contains neither a colon nor a newline and whose summary,
type name and status name contain no newline, re-deriving the essential
fields (key, summary, status) from the text produced by `formatJiraIssue`
recovers the original values exactly. -/
theorem c9_formatJiraIssue_roundtrip_amended (issue : JiraIssue)
    (_hpriority : issue.fields.priority.isSome = true)
    (_hassignee : issue.fields.assignee.isSome = true)
    (_hdescription : issue.fields.description ≠ JsValue.null)
    (hk1 : ':' ∉ issue.key.data)
    (hk2 : '\n' ∉ issue.key.data)
    (hs1 : '\n' ∉ issue.fields.summary.data)
    (ht1 : '\n' ∉ issue.fields.issuetype.name.data)
    (hst1 : '\n' ∉ issue.fields.status.name.data) :
    deriveKey (formatJiraIssue issue) = issue.key ∧
    deriveSummary (formatJiraIssue issue) = issue.fields.summary ∧
    deriveStatus (formatJiraIssue issue) = issue.fields.status.name := by
  have hdata := formatJiraIssue_data issue
  refine ⟨?_, ?_, ?_⟩
  · unfold deriveKey
    rw [hdata]
    rw [takeWhile_append_all _ _ _ (all_bne_of_not_mem hk1)]
    simp [List.takeWhile_cons]
  · unfold deriveSummary
    rw [hdata]
    rw [dropWhile_append_all _ _ _ (all_bne_of_not_mem hk1)]
    simp only [List.dropWhile_cons]
    norm_num
    rw [takeWhile_append_all _ _ _ (all_bne_of_not_mem hs1)]
    simp [List.takeWhile_cons]
  · unfold deriveStatus
    have hdata' : (formatJiraIssue issue).data =
        (issue.key.data ++ ':' :: ' ' :: issue.fields.summary.data) ++ '\n' ::
        (([] : List Char) ++ '\n' ::
        (("Type:     ".data ++ issue.fields.issuetype.name.data) ++ '\n' ::
        (("Status:   ".data ++ issue.fields.status.name.data) ++ '\n' ::
        (formatTail issue).data))) := by
      rw [hdata]
      simp [List.append_assoc]
    rw [hdata']
    have hA0 : ∀ x ∈ issue.key.data ++ ':' :: ' ' :: issue.fields.summary.data,
        (x != '\n') = true := by
      intro x hx
      simp only [List.mem_append, List.mem_cons] at hx
      rcases hx with hx | hx | hx | hx
      · exact all_bne_of_not_mem hk2 x hx
      · subst hx; decide
      · subst hx; decide
      · exact all_bne_of_not_mem hs1 x hx
    have hL2 : ∀ x ∈ "Type:     ".data ++ issue.fields.issuetype.name.data,
        (x != '\n') = true := by
      intro x hx
      simp only [List.mem_append] at hx
      rcases hx with hx | hx
      · exact (by decide : ∀ y ∈ ("Type:     " : String).data, (y != '\n') = true) x hx
      · exact all_bne_of_not_mem ht1 x hx
    have hL3 : ∀ x ∈ "Status:   ".data ++ issue.fields.status.name.data,
        (x != '\n') = true := by
      intro x hx
      simp only [List.mem_append] at hx
      rcases hx with hx | hx
      · exact (by decide : ∀ y ∈ ("Status:   " : String).data, (y != '\n') = true) x hx
      · exact all_bne_of_not_mem hst1 x hx
    rw [nthLine_succ_concat _ _ _ hA0]
    rw [nthLine_succ_concat _ _ _ (by intro x hx; simp at hx)]
    rw [nthLine_succ_concat _ _ _ hL2]
    rw [nthLine_zero_concat _ _ hL3]
    have hlen : ("Status:   " : String).data.length = 10 := by decide
    rw [← hlen, List.drop_left]

/-- Non-vacuity of `c9_formatJiraIssue_roundtrip_amended`: a concrete issue
with colon- and newline-free fields round-trips. -/
theorem c9_formatJiraIssue_roundtrip_amended_witness :
    ((⟨"PROJ-7", ⟨"Fix login", ⟨"Open"⟩, ⟨"Bug"⟩, some ⟨"High"⟩, some ⟨"Ada", none⟩,
        JsValue.str "d", "2026-01-01", "2026-01-02"⟩⟩ :
          JiraIssue).fields.priority.isSome = true ∧
      ':' ∉ ("PROJ-7" : String).data ∧ '\n' ∉ ("Fix login" : String).data) ∧
    deriveKey (formatJiraIssue
        ⟨"PROJ-7", ⟨"Fix login", ⟨"Open"⟩, ⟨"Bug"⟩, some ⟨"High"⟩, some ⟨"Ada", none⟩,
          JsValue.str "d", "2026-01-01", "2026-01-02"⟩⟩) = "PROJ-7" ∧
    deriveSummary (formatJiraIssue
        ⟨"PROJ-7", ⟨"Fix login", ⟨"Open"⟩, ⟨"Bug"⟩, some ⟨"High"⟩, some ⟨"Ada", none⟩,
          JsValue.str "d", "2026-01-01", "2026-01-02"⟩⟩) = "Fix login" ∧
    deriveStatus (formatJiraIssue
        ⟨"PROJ-7", ⟨"Fix login", ⟨"Open"⟩, ⟨"Bug"⟩, some ⟨"High"⟩, some ⟨"Ada", none⟩,
          JsValue.str "d", "2026-01-01", "2026-01-02"⟩⟩) = "Open" := by
  have h := c9_formatJiraIssue_roundtrip_amended
    ⟨"PROJ-7", ⟨"Fix login", ⟨"Open"⟩, ⟨"Bug"⟩, some ⟨"High"⟩, some ⟨"Ada", none⟩,
      JsValue.str "d", "2026-01-01", "2026-01-02"⟩⟩
    rfl rfl (fun h => JsValue.noConfusion h) (by decide) (by decide) (by decide) (by decide)
    (by decide)
  exact ⟨⟨rfl, by decide, by decide⟩, h.1, h.2.1, h.2.2⟩

/-! ## `jira_get_issue` handler (`src/tools/jira/get-issue.ts`) -/

/-- A handler's MCP result: the `isError` flag (set on the failure envelope's
response and on every catch-path response, absent — here `false` — on
success) and the single text block. -/
structure McpToolResult where
  isError : Bool
  text : String
deriving Repr, DecidableEq

/-- An invocation's observable outcome: every log line emitted, in order,
plus the returned result. -/
structure HandlerOutcome where
  logs : List LogLine
  response : McpToolResult
deriving Repr, DecidableEq

/-- The `jira_get_issue` handler body from `src/tools/jira/get-issue.ts`,
from the point where the upstream HTTP response is available.  Stages: log
invocation start; call `jiraRequest` with the issue-specific
`notFoundMessage`; on a failure envelope log a warning (`Jira request failed
for <key>`) and return the envelope's response; on a success envelope
validate via `parseResponse` against `JiraIssueResponseSchema` (the `validate`
input stands for the Zod schema) and format on success; any raised failure —
client throw or validation throw — is caught by the surrounding catch, logged
at error severity and turned into the generic OWASP-safe message.
`correlationId` stands for `crypto.randomUUID()`. -/
def getIssueHandler (parseJson : String → Option JsValue)
    (validate : JsValue → Except (List ZodIssue) JiraIssue)
    (issueKey correlationId : String) (response : HttpResponse) : HandlerOutcome :=
  let metadata : ErrorMetadata := ⟨"jira_get_issue", "getIssue", correlationId⟩
  let startLog : LogLine := ⟨.info, "Fetching Jira issue " ++ issueKey⟩
  let outcome := jiraRequest parseJson response
    (some ("Jira issue " ++ issueKey ++ " was not found. Check the issue key and try again."))
    metadata
  match outcome.result with
  | .ok (.notOk m) =>
    { logs := startLog :: outcome.logs ++ [⟨.warn, "Jira request failed for " ++ issueKey⟩]
      response := ⟨true, m.text⟩ }
  | .ok (.ok data) =>
    match parseResponse validate data metadata with
    | .ok issue =>
      { logs := startLog :: outcome.logs ++ [⟨.info, "Fetched issue " ++ issueKey⟩]
        response := ⟨false, formatJiraIssue issue⟩ }
    | .error _ =>
      { logs := startLog :: outcome.logs ++ [⟨.error, "Failed to fetch issue " ++ issueKey⟩]
        response := ⟨true, "An error occurred while fetching Jira issue " ++ issueKey ++
          ". Check server logs for details."⟩ }
  | .error _ =>
    { logs := startLog :: outcome.logs ++ [⟨.error, "Failed to fetch issue " ++ issueKey⟩]
      response := ⟨true, "An error occurred while fetching Jira issue " ++ issueKey ++
        ". Check server logs for details."⟩ }

/-- **C3 counterexample.** The claim's log count fails on the code: on an
upstream 404 the domain client logs one warning (`Jira resource not found`)
and the handler logs a second one (`Jira request failed for <key>`), so the
invocation emits two warning-level lines, not exactly one. -/
theorem c3_get_issue_404_counterexample :
    countLevel .warn
      (getIssueHandler (fun _ => none) (fun _ => .error []) "PROJ-123" "cid-1"
        ⟨404, ""⟩).logs ≠ 1 := by
  decide

/-- **C3 (amended).** For every `jira_get_issue` invocation in which the
upstream service responds with status 404, the handler returns a result
flagged as an error whose text is the operation's specific not-found message,
and over the whole invocation exactly two warning-level log lines are emitted
(one by the domain client, one by the handler) and no error-level log line is
emitted. -/
theorem c3_get_issue_404_flagged_and_logged (parseJson : String → Option JsValue)
    (validate : JsValue → Except (List ZodIssue) JiraIssue)
    (issueKey correlationId : String) (response : HttpResponse)
    (h404 : response.status = 404) :
    (getIssueHandler parseJson validate issueKey correlationId response).response.isError =
      true ∧
    (getIssueHandler parseJson validate issueKey correlationId response).response.text =
      "Jira issue " ++ issueKey ++ " was not found. Check the issue key and try again." ∧
    countLevel .warn
      (getIssueHandler parseJson validate issueKey correlationId response).logs = 2 ∧
    countLevel .error
      (getIssueHandler parseJson validate issueKey correlationId response).logs = 0 := by
  have e1 : (LogLevel.info == LogLevel.warn) = false := rfl
  have e2 : (LogLevel.warn == LogLevel.warn) = true := rfl
  have e3 : (LogLevel.info == LogLevel.error) = false := rfl
  have e4 : (LogLevel.warn == LogLevel.error) = false := rfl
  simp [getIssueHandler, jiraRequest, h404, countLevel, List.filter, e1, e2, e3, e4]

/-- Non-vacuity of `c3_get_issue_404_flagged_and_logged` at a concrete 404
response. -/
theorem c3_get_issue_404_flagged_and_logged_witness :
    ((⟨404, "{}"⟩ : HttpResponse).status = 404) ∧
    (getIssueHandler (fun _ => none) (fun _ => .error []) "PROJ-123" "cid-1"
        ⟨404, "{}"⟩).response.isError = true ∧
    (getIssueHandler (fun _ => none) (fun _ => .error []) "PROJ-123" "cid-1"
        ⟨404, "{}"⟩).response.text =
      "Jira issue PROJ-123 was not found. Check the issue key and try again." ∧
    countLevel .warn
      (getIssueHandler (fun _ => none) (fun _ => .error []) "PROJ-123" "cid-1"
        ⟨404, "{}"⟩).logs = 2 ∧
    countLevel .error
      (getIssueHandler (fun _ => none) (fun _ => .error []) "PROJ-123" "cid-1"
        ⟨404, "{}"⟩).logs = 0 := by
  have h := c3_get_issue_404_flagged_and_logged (fun _ => none) (fun _ => .error [])
    "PROJ-123" "cid-1" ⟨404, "{}"⟩ rfl
  refine ⟨rfl, h.1, ?_, h.2.2.1, h.2.2.2⟩
  rw [h.2.1]
  rfl

/-! ## `jira_update_issue` request body (`src/tools/jira/update-issue.ts`) -/

/-- The newline test used by the blank-line splitter. -/
def isNl (c : Char) : Bool := c = '\n'

/-- `text.split(/\n{2,}/)`: split the character stream on every maximal run
of two or more newlines (the regex match is greedy, so a run of three or more
newlines is consumed by one split, not several). -/
def splitBlank : List Char → List (List Char)
  | [] => [[]]
  | c :: rest =>
    if c = '\n' ∧ rest.head? = some '\n' then
      [] :: splitBlank (rest.dropWhile isNl)
    else
      match splitBlank rest with
      | [] => [[c]]
      | h :: t => (c :: h) :: t
termination_by cs => cs.length
decreasing_by
  · have h := (List.dropWhile_sublist (l := rest) isNl).length_le
    simp
    omega
  · simp

/-- `textToAdf` from `src/tools/jira/schemas.ts`: split the plain text on
blank lines, trim each block, drop the empty blocks, wrap each survivor in a
`paragraph` node with one `text` child, and wrap the lot in a version-1 `doc`
node — or a single empty paragraph when no block survives. -/
def textToAdf (text : String) : JsValue :=
  let paragraphs :=
    (((splitBlank text.data).map (fun block => jsTrim ⟨block⟩)).filter
        (fun block => block ≠ "")).map
      (fun block => JsValue.obj [("type", JsValue.str "paragraph"),
        ("content", JsValue.arr [JsValue.obj [("type", JsValue.str "text"),
          ("text", JsValue.str block)]])])
  JsValue.obj [("type", JsValue.str "doc"), ("version", JsValue.num 1),
    ("content", JsValue.arr
      (if 0 < paragraphs.length then paragraphs
       else [JsValue.obj [("type", JsValue.str "paragraph"),
         ("content", JsValue.arr [JsValue.obj [("type", JsValue.str "text"),
           ("text", JsValue.str "")]])]]))]

/-- The field-processing step of `registerUpdateIssue`
(`src/tools/jira/update-issue.ts`): `processedFields` starts as a copy of the
caller's map and only its `description` entry, when its value is a string, is
replaced by `textToAdf` of that string.  (JS object keys are unique, so the
copy-then-assign is entry-wise.) -/
def processUpdateFields (fields : List (String × JsValue)) : List (String × JsValue) :=
  fields.map (fun kv =>
    if kv.1 = "description" then
      match kv.2 with
      | .str s => (kv.1, textToAdf s)
      | v => (kv.1, v)
    else kv)

/-- `JSON.stringify({ fields: processedFields })`: the request body sent
upstream by `jira_update_issue`. -/
def updateIssueRequestBody (fields : List (String × JsValue)) : JsValue :=
  JsValue.obj [("fields", JsValue.obj (processUpdateFields fields))]

/-- **C10.** For every `jira_update_issue` invocation, the request body sent
upstream carries every entry of the caller's field map unchanged, except the
`description` entry: when its value is a string it is replaced by the ADF
document produced by `textToAdf` from that string; no other field is added,
removed or altered (the processed map has exactly the original keys in the
original order, and every non-`description` entry — and every `description`
entry whose value is not a string — is carried through verbatim). -/
theorem c10_update_fields_frame (fields : List (String × JsValue)) :
    updateIssueRequestBody fields =
      JsValue.obj [("fields", JsValue.obj (processUpdateFields fields))] ∧
    (processUpdateFields fields).map Prod.fst = fields.map Prod.fst ∧
    (∀ (i : Nat) (k : String) (v : JsValue), fields[i]? = some (k, v) →
      k ≠ "description" → (processUpdateFields fields)[i]? = some (k, v)) ∧
    (∀ (i : Nat) (s : String), fields[i]? = some ("description", JsValue.str s) →
      (processUpdateFields fields)[i]? = some ("description", textToAdf s)) ∧
    (∀ (i : Nat) (v : JsValue), fields[i]? = some ("description", v) →
      (∀ s, v ≠ JsValue.str s) →
      (processUpdateFields fields)[i]? = some ("description", v)) := by
  refine ⟨rfl, ?_, ?_, ?_, ?_⟩
  · rw [processUpdateFields, List.map_map]
    apply List.map_congr_left
    intro kv _
    rcases kv with ⟨k, v⟩
    by_cases hk : k = "description"
    · cases v <;> simp [hk]
    · simp [hk]
  · intro i k v hi hk
    simp [processUpdateFields, List.getElem?_map, hi, hk]
  · intro i s hi
    simp [processUpdateFields, List.getElem?_map, hi]
  · intro i v hi hv
    cases v <;> simp [processUpdateFields, List.getElem?_map, hi]
    exact absurd rfl (hv _)

/-- Non-vacuity of `c10_update_fields_frame` on a concrete field map with a
summary, a string description and an object-valued priority. -/
theorem c10_update_fields_frame_witness :
    (([("summary", JsValue.str "New title"),
       ("description", JsValue.str "Hello\n\nWorld"),
       ("priority", JsValue.obj [("name", JsValue.str "High")])] :
        List (String × JsValue))[0]? = some ("summary", JsValue.str "New title") ∧
      ("summary" : String) ≠ "description") ∧
    (processUpdateFields
      [("summary", JsValue.str "New title"),
       ("description", JsValue.str "Hello\n\nWorld"),
       ("priority", JsValue.obj [("name", JsValue.str "High")])])[0]? =
      some ("summary", JsValue.str "New title") ∧
    (processUpdateFields
      [("summary", JsValue.str "New title"),
       ("description", JsValue.str "Hello\n\nWorld"),
       ("priority", JsValue.obj [("name", JsValue.str "High")])])[1]? =
      some ("description", textToAdf "Hello\n\nWorld") ∧
    (processUpdateFields
      [("summary", JsValue.str "New title"),
       ("description", JsValue.str "Hello\n\nWorld"),
       ("priority", JsValue.obj [("name", JsValue.str "High")])])[2]? =
      some ("priority", JsValue.obj [("name", JsValue.str "High")]) := by
  have h := c10_update_fields_frame
    [("summary", JsValue.str "New title"),
     ("description", JsValue.str "Hello\n\nWorld"),
     ("priority", JsValue.obj [("name", JsValue.str "High")])]
  refine ⟨⟨rfl, by decide⟩, ?_, ?_, ?_⟩
  · exact h.2.2.1 0 "summary" (JsValue.str "New title") rfl (by decide)
  · exact h.2.2.2.1 1 "Hello\n\nWorld" rfl
  · exact h.2.2.1 2 "priority" (JsValue.obj [("name", JsValue.str "High")]) rfl
      (by decide)

end McpRelay
